import Mathlib

/-!
Shallow embedding of the INVERNADERO greenhouse dashboards.

The repository contains several near-duplicate single-page dashboards that
subscribe to an MQTT topic, parse JSON sensor payloads, keep a bounded
recent-history window per metric for charting, keep an unbounded session log
for export, and track the connection status of the transport client.

Two dashboard variants carry all the logic the claims are about:

* the single-metric variant (`src/app/page.tsx` and `src/unnamed/part_003`,
  identical handler logic): latest-value map `sensorData`, one humidity
  window `humidityHistory`, one time-label window `timeHistory`, both
  updated with `prev.slice(-TIEMPO_MAX + 1)` followed by a push;

* the full dashboard variant (`src/unnamed/part_002`, and
  `src/greenhouse-monitor-web/app/page.tsx` which is the same handler with a
  fixed bound and one series fewer): latest-value map, five per-metric
  series, one shared time-label series, an unbounded `dataLogRef` session
  log, all series updated with `if (len >= bound) shift(); push(x)`, plus a
  CSV/JSON `exportData` and a reconnect-timer discipline on the MQTT
  `offline` event.

Values are embedded as rationals (JS numbers in the payloads are ordinary
decimal sensor readings; no claim depends on floating-point rounding),
JS objects as association lists with JavaScript override semantics, and the
event-driven handlers as pure step functions on explicit state records.
-/

namespace Invernadero

/-- A JSON leaf value as it appears in the sensor payloads: the wire format
is a flat mapping of metric name to number or string, optionally with a
nested `color` object holding `r,g,b` integer fields (spec §6). -/
inductive SVal where
  | num (q : ℚ)
  | str (s : String)
  | rgb (r g b : ℤ)
deriving DecidableEq, Repr

/-- A decoded JSON object: an association list of key/value pairs.
`JSON.parse` never produces duplicate keys (a later duplicate in the text
overwrites the earlier one), so records coming off the wire are key-unique;
lookups below use first-match, which agrees with JavaScript property access
on key-unique records. -/
abbrev Record := List (String × SVal)

/-- JavaScript property read `obj[key]`: `none` models `undefined`. -/
def getVal : Record → String → Option SVal
  | [], _ => none
  | (k, v) :: rest, key => if k = key then some v else getVal rest key

/-- JavaScript property write `obj[key] = v`: replaces the existing
property or appends a fresh one. -/
def setKey : Record → String → SVal → Record
  | [], key, v => [(key, v)]
  | (k, w) :: rest, key, v =>
      if k = key then (k, v) :: rest else (k, w) :: setKey rest key v

/-- JavaScript object spread `{...prev, ...data}`: every own enumerable
property of `data` overrides the corresponding property of `prev`. -/
def mergeRecord (prev : Record) : Record → Record
  | [] => prev
  | (k, v) :: rest => mergeRecord (setKey prev k v) rest

/-- Spreading a JavaScript array produces its index-keyed own properties
(`{...[5, 7]}` is `{"0": 5, "1": 7}`); this is what the handlers see when a
payload parses to a JSON array instead of an object. -/
def indexedEntries (elems : List SVal) : Record :=
  elems.enum.map fun p => (toString p.1, p.2)

/-- A parsed top-level JSON value. -/
inductive JTop where
  | jobj (fields : Record)
  | jarr (elems : List SVal)
  | jnum (q : ℚ)
  | jstr (s : String)
  | jbool (b : Bool)
  | jnull
deriving DecidableEq, Repr

/-- An incoming MQTT message payload as seen by the handlers: either
`JSON.parse` throws (`malformed`) or it yields a JSON value. -/
inductive Payload where
  | malformed
  | parsed (v : JTop)
deriving DecidableEq, Repr

/-- The things the message handlers dereference properties on: a JSON
object, or a JSON array (arrays are objects in JavaScript, so
`data.timestamp = ...` succeeds on them and the spread yields the
index-keyed entries). On the remaining primitives a strict-mode property
assignment such as `data.timestamp = Date.now()` throws `TypeError`. -/
def toRecord : JTop → Option Record
  | .jobj fields => some fields
  | .jarr elems => some (indexedEntries elems)
  | _ => none

/-! ## The two bounded-push primitives

`pushBounded` embeds the full-dashboard update
`if (h.length >= n) h.shift(); h.push(x)` (src/unnamed/part_002 lines
190-239, src/greenhouse-monitor-web/app/page.tsx lines 136-178).

`slicePush` embeds the single-metric update
`[...prev.slice(-TIEMPO_MAX + 1), x]` (src/app/page.tsx lines 56-59):
`slice(-(n-1))` keeps the last `n - 1` elements, i.e. drops
`length - (n - 1)` from the front. -/

/-- Shift-then-push bounded append (full dashboard variant). -/
def pushBounded (n : ℕ) (l : List α) (x : α) : List α :=
  (if n ≤ l.length then l.drop 1 else l) ++ [x]

/-- Slice-then-push bounded append (single-metric variant). -/
def slicePush (n : ℕ) (l : List α) (x : α) : List α :=
  l.drop (l.length - (n - 1)) ++ [x]

/-- The last `n` elements of a list, in order. -/
def lastN (n : ℕ) (l : List α) : List α := l.drop (l.length - n)

theorem length_pushBounded (n : ℕ) (l : List α) (x : α) (hn : 1 ≤ n)
    (h : l.length ≤ n) : (pushBounded n l x).length ≤ n := by
  simp only [pushBounded]
  by_cases hc : n ≤ l.length
  · simp [hc]; omega
  · simp [hc]; omega

theorem pushBounded_eq_lastN (n : ℕ) (l : List α) (x : α) (hn : 1 ≤ n)
    (h : l.length ≤ n) : pushBounded n l x = lastN n (l ++ [x]) := by
  simp only [pushBounded, lastN, List.length_append, List.length_singleton]
  by_cases hc : n ≤ l.length
  · have hl : l.length = n := le_antisymm h hc
    have h1 : l.length + 1 - n = 1 := by omega
    rw [if_pos hc, h1, List.drop_append_of_le_length (by omega)]
  · have h0 : l.length + 1 - n = 0 := by omega
    rw [if_neg hc, h0, List.drop_zero]

theorem lastN_append_absorb (n : ℕ) (l xs : List α) :
    lastN n (lastN n l ++ xs) = lastN n (l ++ xs) := by
  simp only [lastN, List.length_append, List.length_drop,
    List.drop_append_eq_append_drop, List.drop_drop]
  congr 1
  · congr 1
    omega
  · congr 1
    omega

theorem foldl_pushBounded_eq_lastN (n : ℕ) (hn : 1 ≤ n) :
    ∀ (xs init : List α), init.length ≤ n →
      xs.foldl (pushBounded n) init = lastN n (init ++ xs)
  | [], init, h => by
      simp only [List.foldl_nil, List.append_nil, lastN]
      have : init.length - n = 0 := by omega
      rw [this, List.drop_zero]
  | x :: xs, init, h => by
      rw [List.foldl_cons,
        foldl_pushBounded_eq_lastN n hn xs (pushBounded n init x)
          (length_pushBounded n init x hn h),
        pushBounded_eq_lastN n init x hn h, lastN_append_absorb]
      simp

theorem slicePush_eq_pushBounded (n : ℕ) (l : List α) (x : α) (hn : 1 ≤ n)
    (h : l.length ≤ n) : slicePush n l x = pushBounded n l x := by
  simp only [slicePush, pushBounded]
  by_cases hc : n ≤ l.length
  · have hl : l.length = n := le_antisymm h hc
    have : l.length - (n - 1) = 1 := by omega
    rw [this, if_pos hc]
  · have : l.length - (n - 1) = 0 := by omega
    rw [this, List.drop_zero, if_neg hc]

theorem foldl_slicePush_eq_foldl_pushBounded (n : ℕ) (hn : 1 ≤ n) :
    ∀ (xs init : List α), init.length ≤ n →
      xs.foldl (slicePush n) init = xs.foldl (pushBounded n) init
  | [], _, _ => by simp
  | x :: xs, init, h => by
      rw [List.foldl_cons, List.foldl_cons,
        slicePush_eq_pushBounded n init x hn h,
        foldl_slicePush_eq_foldl_pushBounded n hn xs (pushBounded n init x)
          (length_pushBounded n init x hn h)]

/-- The window obtained by ingesting the values `xs` in order into an
initially empty window bounded by `n`, with the full-dashboard update. -/
def foldPush (n : ℕ) (xs : List ℚ) : List ℚ := xs.foldl (pushBounded n) []

/-- The same run with the single-metric variant's slice-based update. -/
def foldSlice (n : ℕ) (xs : List ℚ) : List ℚ := xs.foldl (slicePush n) []

theorem foldPush_eq_lastN (n : ℕ) (hn : 1 ≤ n) (xs : List ℚ) :
    foldPush n xs = lastN n xs := by
  rw [foldPush, foldl_pushBounded_eq_lastN n hn xs [] (by simp),
    List.nil_append]

theorem foldSlice_eq_foldPush (n : ℕ) (hn : 1 ≤ n) (xs : List ℚ) :
    foldSlice n xs = foldPush n xs :=
  foldl_slicePush_eq_foldl_pushBounded n hn xs [] (by simp)

/-- C1 (confirmed). Bounded FIFO window: with window bound `n ≥ 1`, after
ingesting any sequence `xs` of numeric values into an initially empty
window, both the shift-based update of the full dashboards and the
slice-based update of the single-metric dashboards yield a window of length
at most `n`, and once at least `n` values have been ingested the window is
exactly the last `n` ingested values in arrival order
(`xs.drop (xs.length - n)`). -/
theorem bounded_fifo_window (n : ℕ) (hn : 1 ≤ n) (xs : List ℚ) :
    (foldPush n xs).length ≤ n ∧ (foldSlice n xs).length ≤ n ∧
    foldPush n xs = xs.drop (xs.length - n) ∧
    foldSlice n xs = xs.drop (xs.length - n) := by
  have he := foldPush_eq_lastN n hn xs
  have hs := foldSlice_eq_foldPush n hn xs
  refine ⟨?_, ?_, ?_, ?_⟩
  · rw [he]; simp only [lastN, List.length_drop]; omega
  · rw [hs, he]; simp only [lastN, List.length_drop]; omega
  · rw [he]; rfl
  · rw [hs, he]; rfl

/-- C1 witness: the spec's scenario with bound 3 — ingesting humedad
values 10, 20, 30, 40 yields the window `[20, 30, 40]` under both update
disciplines, with all the bounds of the theorem discharged at this input. -/
theorem bounded_fifo_window_witness :
    ((foldPush 3 [10, 20, 30, 40]).length ≤ 3 ∧
      (foldSlice 3 [10, 20, 30, 40]).length ≤ 3 ∧
      foldPush 3 [10, 20, 30, 40] =
        List.drop (List.length [(10 : ℚ), 20, 30, 40] - 3) [10, 20, 30, 40] ∧
      foldSlice 3 [10, 20, 30, 40] =
        List.drop (List.length [(10 : ℚ), 20, 30, 40] - 3) [10, 20, 30, 40]) ∧
    foldPush 3 [10, 20, 30, 40] = [20, 30, 40] ∧
    foldSlice 3 [10, 20, 30, 40] = [20, 30, 40] :=
  ⟨bounded_fifo_window 3 (by decide) [10, 20, 30, 40], by decide, by decide⟩

/-! ## Single-metric dashboard variant

Embeds the message handler of `src/app/page.tsx` lines 51-63 (identical in
`src/unnamed/part_003` lines 55-67): parse the payload, merge it into the
latest-value map, and when `typeof data.humedad === "number"` push the value
onto the humidity window and the previous label count onto the time window,
both under the `slice(-TIEMPO_MAX + 1)` bound. -/

/-- Maximum number of points in the graph (`const TIEMPO_MAX = 30`). -/
def TIEMPO_MAX : ℕ := 30

/-- The React state of the single-metric dashboard that the message handler
touches. -/
structure AState where
  sensorData : Record
  humidityHistory : List ℚ
  timeHistory : List ℕ
  status : String
deriving DecidableEq, Repr

/-- Initial state of the single-metric dashboard. -/
def initA : AState :=
  { sensorData := [], humidityHistory := [], timeHistory := []
    status := "Esperando conexión..." }

/-- The object path of the single-metric handler: merge the record into the
latest-value map and, when the record's `humedad` property is a number,
push it onto the humidity window (and the old label count onto the time
window) under the slice bound. -/
def stepARecord (s : AState) (r : Record) : AState :=
  let s1 := { s with sensorData := mergeRecord s.sensorData r }
  match getVal r "humedad" with
  | some (.num q) =>
      { s1 with
        humidityHistory := slicePush TIEMPO_MAX s.humidityHistory q
        timeHistory := slicePush TIEMPO_MAX s.timeHistory s.timeHistory.length }
  | _ => s1

/-- One message delivery in the single-metric dashboard.

* Malformed JSON: `JSON.parse` throws, the `catch` sets the status.
* `null`: spreading `null` merges no keys, then `data.humedad` throws
  `TypeError`, caught by the same `catch` — so the status is set and the
  latest-value map is replaced by an equal copy.
* Other primitives: spreading a number/string/boolean merges no keys,
  `data.humedad` is `undefined`, nothing throws — the handler finishes with
  no status message and no window change.
* Objects and arrays: the record path (an array contributes its index-keyed
  entries, which never include `"humedad"`). -/
def stepA (s : AState) : Payload → AState
  | .malformed => { s with status := "Error al procesar datos" }
  | .parsed .jnull =>
      { s with sensorData := mergeRecord s.sensorData []
               status := "Error al procesar datos" }
  | .parsed (.jnum _) => { s with sensorData := mergeRecord s.sensorData [] }
  | .parsed (.jstr _) => { s with sensorData := mergeRecord s.sensorData [] }
  | .parsed (.jbool _) => { s with sensorData := mergeRecord s.sensorData [] }
  | .parsed (.jobj fields) => stepARecord s fields
  | .parsed (.jarr elems) => stepARecord s (indexedEntries elems)

/-- The window the single-metric dashboard can show for a metric: it keeps
a history only for `humedad`; no other metric has any window. -/
def snapshotA (s : AState) (metric : String) : List ℚ :=
  if metric = "humedad" then s.humidityHistory else []

/-! ### Association-list lemmas shared by the frame claims -/

theorem getVal_setKey_ne (p : Record) (k m : String) (v : SVal) (h : k ≠ m) :
    getVal (setKey p k v) m = getVal p m := by
  induction p with
  | nil => simp [setKey, getVal, h]
  | cons hd tl ih =>
      obtain ⟨k', w⟩ := hd
      by_cases hk : k' = k
      · subst hk
        simp [setKey, getVal, h]
      · simp only [setKey, if_neg hk, getVal]
        by_cases hm : k' = m
        · simp [hm]
        · simp [hm, ih]

theorem getVal_setKey_self (p : Record) (k : String) (v : SVal) :
    getVal (setKey p k v) k = some v := by
  induction p with
  | nil => simp [setKey, getVal]
  | cons hd tl ih =>
      obtain ⟨k', w⟩ := hd
      by_cases hk : k' = k
      · subst hk; simp [setKey, getVal]
      · simp [setKey, hk, getVal, ih]

theorem getVal_mergeRecord_not_mem (p : Record) (m : String) :
    ∀ r : Record, m ∉ r.map Prod.fst →
      getVal (mergeRecord p r) m = getVal p m := by
  intro r
  induction r generalizing p with
  | nil => intro _; rfl
  | cons hd tl ih =>
      obtain ⟨k, v⟩ := hd
      intro hmem
      simp only [List.map_cons, List.mem_cons] at hmem
      push_neg at hmem
      rw [mergeRecord, ih (setKey p k v) hmem.2,
        getVal_setKey_ne p k m v (fun he => hmem.1 he.symm)]

theorem getVal_mergeRecord_mem (p : Record) (m : String) (v : SVal) :
    ∀ r : Record, (r.map Prod.fst).Nodup → getVal r m = some v →
      getVal (mergeRecord p r) m = some v := by
  intro r
  induction r generalizing p with
  | nil => intro _ h; simp [getVal] at h
  | cons hd tl ih =>
      obtain ⟨k, w⟩ := hd
      intro hnd hget
      simp only [List.map_cons, List.nodup_cons] at hnd
      by_cases hk : k = m
      · subst hk
        simp only [getVal, if_true, eq_self_iff_true, Option.some.injEq] at hget
        subst hget
        rw [mergeRecord, getVal_mergeRecord_not_mem _ _ _ hnd.1,
          getVal_setKey_self]
      · simp only [getVal, if_neg hk] at hget
        rw [mergeRecord]
        exact ih (setKey p k w) hnd.2 hget

/-- C9 (confirmed). Latest-value frame property: delivering a decoded
object record leaves `latest(m)` unchanged for every metric name `m` that
is not a key of the record — the latest-value map is updated by key-wise
merge, so a metric observed earlier keeps its last value after any later
message that omits it. -/
theorem latest_value_frame (s : AState) (r : Record) (m : String)
    (hm : m ∉ r.map Prod.fst) :
    getVal (stepA s (.parsed (.jobj r))).sensorData m =
      getVal s.sensorData m := by
  have hmerge := getVal_mergeRecord_not_mem s.sensorData m r hm
  simp only [stepA, stepARecord]
  rcases hget : getVal r "humedad" with _ | v
  · simpa [hget] using hmerge
  · cases v <;> simpa [hget] using hmerge

/-- C9 witness: after ingesting `{"calidad_agua": "Buena"}` and then
`{"humedad": 33}` (which omits `calidad_agua`), the water-quality label
keeps its earlier value. -/
theorem latest_value_frame_witness :
    getVal (stepA (stepA initA (.parsed (.jobj [("calidad_agua",
        .str "Buena")]))) (.parsed (.jobj [("humedad", .num 33)]))).sensorData
        "calidad_agua" =
      getVal (stepA initA (.parsed (.jobj [("calidad_agua",
        .str "Buena")]))).sensorData "calidad_agua" :=
  latest_value_frame _ [("humedad", .num 33)] "calidad_agua" (by decide)

theorem length_slicePush (n : ℕ) (l : List α) (x : α) :
    (slicePush n l x).length = l.length - (l.length - (n - 1)) + 1 := by
  simp [slicePush]

/-- C10 (confirmed). Single-metric variant alignment: starting from the
initial state, after any sequence of delivered payloads the time-label
window and the humidity window of the single-metric dashboard have equal
length — both are appended together, and only when the record carries a
numeric `humedad`, under the same slice bound. -/
theorem single_metric_alignment (ps : List Payload) :
    (ps.foldl stepA initA).timeHistory.length =
      (ps.foldl stepA initA).humidityHistory.length := by
  suffices h : ∀ (ps : List Payload) (s : AState),
      s.timeHistory.length = s.humidityHistory.length →
      (ps.foldl stepA s).timeHistory.length =
        (ps.foldl stepA s).humidityHistory.length from
    h ps initA rfl
  intro ps
  induction ps with
  | nil => intro s hs; exact hs
  | cons p ps ih =>
      intro s hs
      rw [List.foldl_cons]
      refine ih (stepA s p) ?_
      cases p with
      | malformed => exact hs
      | parsed v =>
          cases v with
          | jobj fields =>
              simp only [stepA, stepARecord]
              rcases hget : getVal fields "humedad" with _ | w
              · exact hs
              · cases w <;> simp [length_slicePush, hs]
          | jarr elems =>
              simp only [stepA, stepARecord]
              rcases hget : getVal (indexedEntries elems) "humedad" with _ | w
              · exact hs
              · cases w <;> simp [length_slicePush, hs]
          | jnum q => exact hs
          | jstr t => exact hs
          | jbool b => exact hs
          | jnull => exact hs

/-! ### C6: selective window update -/

/-- State after ingesting `{"ph": 6.0}` into the single-metric dashboard. -/
def c6AfterPh : AState := stepA initA (.parsed (.jobj [("ph", .num 6)]))

/-- State after then ingesting `{"calidad_agua": "Buena"}`. -/
def c6AfterBoth : AState :=
  stepA c6AfterPh (.parsed (.jobj [("calidad_agua", .str "Buena")]))

/-- C6 counterexample. The claim's example asserts that after ingesting
`{"ph": 6.0}` then `{"calidad_agua": "Buena"}`, `snapshot("ph")` has
length 1. The code keeps a history window only for `humedad`; `ph` is a
latest-value-only metric, so its window has length 0 (not 1) even though
`latest("ph")` is indeed 6.0. -/
theorem selective_window_update_cex :
    getVal c6AfterBoth.sensorData "ph" = some (.num 6) ∧
    ¬ (snapshotA c6AfterBoth "ph").length = 1 := by
  constructor
  · rfl
  · decide

/-- C6 as amended (corrected). In the single-metric dashboard: ingesting a
record whose `humedad` value is non-numeric (a string) updates
`latest("humedad")` but leaves the humidity window untouched; ingesting a
record without a `humedad` key leaves the window untouched; and in the
spec's scenario (`{"ph":6.0}` then `{"calidad_agua":"Buena"}`)
`latest("ph")` is 6.0 while `snapshot("ph")` is unchanged and empty,
because the code never maintains a window for `ph`. -/
theorem selective_window_update
    (s : AState) (r : Record) (v : String)
    (hnd : (r.map Prod.fst).Nodup)
    (hv : getVal r "humedad" = some (.str v)) (r' : Record)
    (hmiss : getVal r' "humedad" = none) :
    ((stepA s (.parsed (.jobj r))).humidityHistory = s.humidityHistory ∧
      getVal (stepA s (.parsed (.jobj r))).sensorData "humedad" =
        some (.str v)) ∧
    (stepA s (.parsed (.jobj r'))).humidityHistory = s.humidityHistory ∧
    (getVal c6AfterBoth.sensorData "ph" = some (.num 6) ∧
      snapshotA c6AfterBoth "ph" = snapshotA c6AfterPh "ph" ∧
      (snapshotA c6AfterBoth "ph").length = 0) := by
  refine ⟨⟨?_, ?_⟩, ?_, rfl, by decide, by decide⟩
  · simp [stepA, stepARecord, hv]
  · simp only [stepA, stepARecord, hv]
    exact getVal_mergeRecord_mem s.sensorData "humedad" (.str v) r hnd hv
  · simp [stepA, stepARecord, hmiss]

/-- C6 witness: the amended theorem applied at a concrete non-numeric
`humedad` record and a concrete record lacking the key. -/
theorem selective_window_update_witness :
    (((stepA initA (.parsed (.jobj [("humedad",
            .str "alta")]))).humidityHistory = initA.humidityHistory ∧
      getVal (stepA initA (.parsed (.jobj [("humedad",
          .str "alta")]))).sensorData "humedad" = some (.str "alta")) ∧
    (stepA initA (.parsed (.jobj [("ph", .num 7)]))).humidityHistory =
      initA.humidityHistory ∧
    (getVal c6AfterBoth.sensorData "ph" = some (.num 6) ∧
      snapshotA c6AfterBoth "ph" = snapshotA c6AfterPh "ph" ∧
      (snapshotA c6AfterBoth "ph").length = 0)) :=
  selective_window_update initA [("humedad", .str "alta")] "alta"
    (by decide) (by decide) [("ph", .num 7)] (by decide)

/-! ## Full dashboard variant

Embeds the message handler of `src/unnamed/part_002` lines 176-247. The
handler in `src/greenhouse-monitor-web/app/page.tsx` lines 122-186 is the
same with the bound fixed to `TIEMPO_MAX` and without the `water_level`
series, so the bound is kept as a parameter `n` here. On a decoded record
the handler stamps `data.timestamp = Date.now()`, merges the record into
the latest-value map, appends it to the unbounded session log, appends one
label to the shared time window, and pushes each numeric-valued tracked
metric onto its series under the same bound (`water_level` is stored as a
percentage). -/

/-- `Math.round`: JavaScript rounds half-way cases towards positive
infinity. -/
def jsRound (q : ℚ) : ℤ := ⌊q + 1 / 2⌋

/-- `waterLevelToPercent` (src/unnamed/part_002 lines 76-80): analog level
0..1023 to a clamped percentage; `undefined` maps to 0. -/
def waterLevelToPercent : Option ℚ → ℤ
  | none => 0
  | some level => min (max (jsRound (level / 1023 * 100)) 0) 100

/-- `interpretWaterQuality` (src/unnamed/part_002 lines 83-90). -/
def interpretWaterQuality : Option ℚ → String
  | none => "Desconocida"
  | some tds =>
      if tds < 50 then "Excelente"
      else if tds < 200 then "Buena"
      else if tds < 500 then "Regular"
      else if tds < 1000 then "Pobre"
      else "Muy pobre"

/-- `interpretLightLevel` (src/unnamed/part_002 lines 93-100). -/
def interpretLightLevel : Option ℚ → String
  | none => "Desconocido"
  | some light =>
      if light < 100 then "Muy bajo"
      else if light < 300 then "Bajo"
      else if light < 600 then "Moderado"
      else if light < 800 then "Alto"
      else "Muy alto"

/-- The React state of the full dashboard that the message handler
touches: latest-value map, five bounded metric series, the shared bounded
time-label series, the unbounded session log, and the status line. -/
structure CState where
  sensorData : Record
  soil_moisture : List ℚ
  temperature : List ℚ
  humidity : List ℚ
  tds : List ℚ
  water_level : List ℚ
  timeHistory : List String
  dataLog : List Record
  status : String
deriving DecidableEq, Repr

/-- Initial state of the full dashboard. -/
def initC : CState :=
  { sensorData := [], soil_moisture := [], temperature := [], humidity := []
    tds := [], water_level := [], timeHistory := [], dataLog := []
    status := "Esperando conexión..." }

/-- One `if (typeof data.X === "number") { if (len >= n) shift; push }`
block: push `f` of the value when the property is a number, else leave the
series alone. -/
def updateSeries (n : ℕ) (cur : List ℚ) (o : Option SVal) (f : ℚ → ℚ) :
    List ℚ :=
  match o with
  | some (.num q) => pushBounded n cur (f q)
  | _ => cur

/-- The record path of the full-dashboard handler: stamp the receipt
timestamp onto the record, merge it into the latest-value map, append it to
the session log, append the time label, and update each tracked series. -/
def stepCRecord (n : ℕ) (timeLabel : String) (t : ℕ) (s : CState)
    (fields : Record) : CState :=
  let record := setKey fields "timestamp" (.num t)
  { s with
    sensorData := mergeRecord s.sensorData record
    dataLog := s.dataLog ++ [record]
    timeHistory := pushBounded n s.timeHistory timeLabel
    soil_moisture :=
      updateSeries n s.soil_moisture (getVal record "soil_moisture") id
    temperature :=
      updateSeries n s.temperature (getVal record "temperature") id
    humidity := updateSeries n s.humidity (getVal record "humidity") id
    tds := updateSeries n s.tds (getVal record "tds") id
    water_level := updateSeries n s.water_level (getVal record "water_level")
      fun q => ((waterLevelToPercent (some q) : ℤ) : ℚ) }

/-- One message delivery in the full dashboard. A payload that fails to
parse, and a payload parsing to a JSON primitive (on which the strict-mode
`data.timestamp = Date.now()` assignment throws `TypeError`), both end in
the `catch` block, which only sets the status line (the code appends the
JavaScript error text to it; the fixed prefix stands for the whole message
here). Objects — and arrays, which are assignable objects in JavaScript —
take the record path. -/
def stepC (n : ℕ) (timeLabel : String) (t : ℕ) (s : CState) :
    Payload → CState
  | .malformed => { s with status := "Error al procesar datos" }
  | .parsed v =>
      match toRecord v with
      | some fields => stepCRecord n timeLabel t s fields
      | none => { s with status := "Error al procesar datos" }

/-- A delivered message: time label, receipt timestamp, payload. -/
abbrev CMsg := String × ℕ × Payload

/-- A run of the full dashboard from its initial state under a fixed
configured bound `n`. -/
def runC (n : ℕ) (msgs : List CMsg) : CState :=
  msgs.foldl (fun s m => stepC n m.1 m.2.1 s m.2.2) initC

/-- Whether a payload reaches the record path of the handler (valid JSON
that is an object or an array). -/
def isDecoded : Payload → Bool
  | .malformed => false
  | .parsed v => (toRecord v).isSome

/-- Number of messages of a run that reach the record path. -/
def decodedCount (msgs : List CMsg) : ℕ :=
  (msgs.filter fun m => isDecoded m.2.2).length

/-! ### C2: shared time axis -/

/-- C2 counterexample. A single decoded message `{"temperature": 20}`
appends a time label but no humidity sample, so the humidity series
(length 0) does not have the same length as the time-label sequence
(length 1): the claimed consequence "every metric's series has the same
length as the time-label sequence" is false. -/
theorem shared_time_axis_cex :
    (stepC 30 "00:00:01" 1 initC
        (.parsed (.jobj [("temperature", .num 20)]))).timeHistory.length = 1 ∧
    ¬ (stepC 30 "00:00:01" 1 initC
        (.parsed (.jobj [("temperature", .num 20)]))).humidity.length =
      (stepC 30 "00:00:01" 1 initC
        (.parsed (.jobj [("temperature", .num 20)]))).timeHistory.length := by
  constructor
  · rfl
  · decide

theorem length_pushBounded_eq (n : ℕ) (l : List α) (x : α) (hn : 1 ≤ n) :
    (pushBounded n l x).length =
      if n ≤ l.length then l.length else l.length + 1 := by
  simp only [pushBounded]
  by_cases hc : n ≤ l.length
  · simp [hc]; omega
  · simp [hc]

theorem length_updateSeries_le (n : ℕ) (hn : 1 ≤ n) (cur : List ℚ)
    (o : Option SVal) (f : ℚ → ℚ) (tl : List String) (lbl : String)
    (hle : cur.length ≤ tl.length) (htl : tl.length ≤ n) :
    (updateSeries n cur o f).length ≤ (pushBounded n tl lbl).length := by
  rw [length_pushBounded_eq n tl lbl hn]
  match o with
  | none => simp only [updateSeries]; split <;> omega
  | some (.str _) => simp only [updateSeries]; split <;> omega
  | some (.rgb _ _ _) => simp only [updateSeries]; split <;> omega
  | some (.num q) =>
      simp only [updateSeries]
      rw [length_pushBounded_eq n cur (f q) hn]
      split <;> split <;> omega

/-- The invariant of the full dashboard's chart state: the time window
respects the bound and no metric series is longer than the time window. -/
def chartInv (n : ℕ) (s : CState) : Prop :=
  s.timeHistory.length ≤ n ∧
  s.soil_moisture.length ≤ s.timeHistory.length ∧
  s.temperature.length ≤ s.timeHistory.length ∧
  s.humidity.length ≤ s.timeHistory.length ∧
  s.tds.length ≤ s.timeHistory.length ∧
  s.water_level.length ≤ s.timeHistory.length

theorem chartInv_step (n : ℕ) (hn : 1 ≤ n) (s : CState) (lbl : String)
    (t : ℕ) (p : Payload) (h : chartInv n s) :
    chartInv n (stepC n lbl t s p) := by
  obtain ⟨h0, h1, h2, h3, h4, h5⟩ := h
  cases p with
  | malformed => exact ⟨h0, h1, h2, h3, h4, h5⟩
  | parsed v =>
      simp only [stepC]
      match toRecord v with
      | none => exact ⟨h0, h1, h2, h3, h4, h5⟩
      | some fields =>
          refine ⟨length_pushBounded n s.timeHistory lbl hn h0,
            length_updateSeries_le n hn _ _ _ _ lbl h1 h0,
            length_updateSeries_le n hn _ _ _ _ lbl h2 h0,
            length_updateSeries_le n hn _ _ _ _ lbl h3 h0,
            length_updateSeries_le n hn _ _ _ _ lbl h4 h0,
            length_updateSeries_le n hn _ _ _ _ lbl h5 h0⟩

theorem chartInv_run_from (n : ℕ) (hn : 1 ≤ n) :
    ∀ (msgs : List CMsg) (s : CState), chartInv n s →
      chartInv n (msgs.foldl (fun s m => stepC n m.1 m.2.1 s m.2.2) s)
  | [], _, h => h
  | m :: msgs, s, h => by
      rw [List.foldl_cons]
      exact chartInv_run_from n hn msgs _
        (chartInv_step n hn s m.1 m.2.1 m.2.2 h)

theorem timeHistory_length_run_from (n : ℕ) (hn : 1 ≤ n) :
    ∀ (msgs : List CMsg) (s : CState), s.timeHistory.length ≤ n →
      List.length (CState.timeHistory
          (msgs.foldl (fun s m => stepC n m.1 m.2.1 s m.2.2) s)) =
        min (s.timeHistory.length + decodedCount msgs) n
  | [], s, h => by simp [decodedCount, List.filter]; omega
  | m :: msgs, s, h => by
      obtain ⟨lbl, tm, p⟩ := m
      rw [List.foldl_cons]
      rcases p with _ | v
      · have hstep : (stepC n lbl tm s .malformed).timeHistory =
            s.timeHistory := rfl
        rw [timeHistory_length_run_from n hn msgs _ (by rw [hstep]; exact h),
          hstep]
        simp [decodedCount, List.filter, isDecoded]
      · rcases hv : toRecord v with _ | fields
        · have hstep : (stepC n lbl tm s (.parsed v)).timeHistory =
              s.timeHistory := by simp [stepC, hv]
          rw [timeHistory_length_run_from n hn msgs _
              (by rw [hstep]; exact h), hstep]
          simp [decodedCount, List.filter, isDecoded, hv]
        · have hstep : (stepC n lbl tm s (.parsed v)).timeHistory =
              pushBounded n s.timeHistory lbl := by
            simp [stepC, hv, stepCRecord]
          have hlen : (pushBounded n s.timeHistory lbl).length ≤ n :=
            length_pushBounded n s.timeHistory lbl hn h
          rw [timeHistory_length_run_from n hn msgs _
            (by rw [hstep]; exact hlen), hstep,
            length_pushBounded_eq n s.timeHistory lbl hn]
          simp only [decodedCount, List.filter, isDecoded, hv,
            Option.isSome_some, List.length_cons]
          split <;> omega

/-- C2 as amended (corrected). Shared time axis: under a fixed configured
bound `n ≥ 1`, exactly one entry is appended to the shared time-label
sequence per message that reaches the record path (so its length is
`min (decoded count) n`), and every metric series is never longer than the
time-label sequence — but a message that omits a metric appends a time
label without appending to that metric's series, so equality of lengths
holds only when the metric was numeric in every decoded message. -/
theorem shared_time_axis (n : ℕ) (hn : 1 ≤ n) (msgs : List CMsg) :
    (runC n msgs).timeHistory.length = min (decodedCount msgs) n ∧
    (runC n msgs).soil_moisture.length ≤ (runC n msgs).timeHistory.length ∧
    (runC n msgs).temperature.length ≤ (runC n msgs).timeHistory.length ∧
    (runC n msgs).humidity.length ≤ (runC n msgs).timeHistory.length ∧
    (runC n msgs).tds.length ≤ (runC n msgs).timeHistory.length ∧
    (runC n msgs).water_level.length ≤ (runC n msgs).timeHistory.length := by
  have hinv := chartInv_run_from n hn msgs initC
    ⟨by simp [initC], by simp [initC], by simp [initC], by simp [initC],
      by simp [initC], by simp [initC]⟩
  have hlen := timeHistory_length_run_from n hn msgs initC (by simp [initC])
  simp only [initC, List.length_nil, Nat.zero_add] at hlen
  exact ⟨hlen, hinv.2.1, hinv.2.2.1, hinv.2.2.2.1, hinv.2.2.2.2.1,
    hinv.2.2.2.2.2⟩

/-- A small concrete run: one full record, one temperature-only record,
one malformed payload. -/
def sampleMsgs : List CMsg :=
  [("00:00:01", 1, .parsed (.jobj [("temperature", .num 21),
      ("humidity", .num 50)])),
    ("00:00:02", 2, .parsed (.jobj [("temperature", .num 22)])),
    ("00:00:03", 3, .malformed)]

/-- C2 witness: the amended theorem applied to the sample run under the
default bound. -/
theorem shared_time_axis_witness :
    (runC 30 sampleMsgs).timeHistory.length =
      min (decodedCount sampleMsgs) 30 ∧
    (runC 30 sampleMsgs).soil_moisture.length ≤
      (runC 30 sampleMsgs).timeHistory.length ∧
    (runC 30 sampleMsgs).temperature.length ≤
      (runC 30 sampleMsgs).timeHistory.length ∧
    (runC 30 sampleMsgs).humidity.length ≤
      (runC 30 sampleMsgs).timeHistory.length ∧
    (runC 30 sampleMsgs).tds.length ≤
      (runC 30 sampleMsgs).timeHistory.length ∧
    (runC 30 sampleMsgs).water_level.length ≤
      (runC 30 sampleMsgs).timeHistory.length :=
  shared_time_axis 30 (by decide) sampleMsgs

/-! ### C4: decode-error atomicity -/

/-- C4 counterexample. The payload `"[]"` is valid JSON but not a JSON
object. In the full dashboard the array takes the record path (arrays are
assignable objects in JavaScript, so `data.timestamp = Date.now()`
succeeds): the record is appended to the session log and a time label is
appended, while the status line never changes — the record is neither
dropped nor error-surfaced. In the single-metric dashboard the payload
`"42"` (valid JSON, not an object) leaves the state completely unchanged:
in particular no status message is surfaced. -/
theorem decode_error_atomicity_cex :
    (stepC 30 "00:00:01" 1 initC (.parsed (.jarr []))).dataLog.length = 1 ∧
    (stepC 30 "00:00:01" 1 initC (.parsed (.jarr []))).timeHistory.length
      = 1 ∧
    (stepC 30 "00:00:01" 1 initC (.parsed (.jarr []))).status =
      "Esperando conexión..." ∧
    stepA initA (.parsed (.jnum 42)) = initA := by
  refine ⟨rfl, rfl, rfl, ?_⟩
  decide

/-- C4 as amended (corrected). For a payload that is not valid JSON both
handlers set only the status line; the same holds in the full dashboard
for payloads parsing to JSON primitives (number, string, boolean, null),
where the strict-mode `data.timestamp` assignment throws and is caught,
and in the single-metric dashboard for `null` (where `data.humedad`
throws). No window, session log or latest-value entry changes in any of
these cases, and the handlers never let an exception escape. A payload
parsing to a JSON *array*, however, is processed by the full dashboard as
an ordinary record, and a primitive payload leaves the single-metric
dashboard silent, with no status message. -/
theorem decode_error_atomicity (s : CState) (a : AState) (n : ℕ)
    (lbl : String) (t : ℕ) (q : ℚ) (txt : String) (b : Bool) :
    stepC n lbl t s .malformed = { s with
      status := "Error al procesar datos" } ∧
    stepC n lbl t s (.parsed (.jnum q)) = { s with
      status := "Error al procesar datos" } ∧
    stepC n lbl t s (.parsed (.jstr txt)) = { s with
      status := "Error al procesar datos" } ∧
    stepC n lbl t s (.parsed (.jbool b)) = { s with
      status := "Error al procesar datos" } ∧
    stepC n lbl t s (.parsed .jnull) = { s with
      status := "Error al procesar datos" } ∧
    stepA a .malformed = { a with status := "Error al procesar datos" } ∧
    stepA a (.parsed .jnull) = { a with
      status := "Error al procesar datos" } :=
  ⟨rfl, rfl, rfl, rfl, rfl, rfl, rfl⟩

/-! ### C3: window length under reconfiguration -/

/-- A sequence of insertions, each under the bound configured at the time
of the insertion (`chartTimespan`, selectable as 10/30/60/120 in
src/unnamed/part_002 lines 790-801), applied to an initially empty
window with the full dashboard's shift-then-push update. -/
def windowRun (steps : List (ℕ × ℚ)) : List ℚ :=
  steps.foldl (fun l p => pushBounded p.1 l p.2) []

/-- C3 counterexample. Ingest 11 values under bound 30, then reconfigure
to bound 10 and ingest one more: the insertion past the bound evicts only
the single oldest entry, so the window still holds 11 entries — more than
the currently configured maximum of 10. The claimed invariant
`length(window) ≤ N` for the currently configured `N` is false. -/
theorem window_bound_reconfiguration_cex :
    (windowRun (List.replicate 11 (30, 1) ++ [(10, 1)])).length = 11 ∧
    ¬ ((windowRun (List.replicate 11 (30, 1) ++ [(10, 1)])).length ≤ 10) := by
  constructor
  · rfl
  · decide

theorem length_pushBounded_le_max (n : ℕ) (l : List ℚ) (x : ℚ)
    (hn : 1 ≤ n) : (pushBounded n l x).length ≤ max l.length n := by
  rw [length_pushBounded_eq n l x hn]
  split <;> omega

theorem windowRun_from_le (N : ℕ) :
    ∀ (steps : List (ℕ × ℚ)) (init : List ℚ),
      (∀ p ∈ steps, 1 ≤ p.1 ∧ p.1 ≤ N) → init.length ≤ N →
      (steps.foldl (fun l p => pushBounded p.1 l p.2) init).length ≤ N
  | [], _, _, h => h
  | p :: steps, init, hb, h => by
      rw [List.foldl_cons]
      obtain ⟨hb1, hbN⟩ := hb p (List.mem_cons_self p steps)
      refine windowRun_from_le N steps _
        (fun q hq => hb q (List.mem_cons_of_mem p hq)) ?_
      have := length_pushBounded_le_max p.1 init p.2 hb1
      omega

/-- C3 as amended (corrected). `0 ≤ length(window)` always holds, and an
insertion under bound `n ≥ 1` never grows the window beyond
`max(previous length, n)` — so as long as every insertion's configured
bound is at most `N`, the window length stays at most `N`. But a decrease
of the configured bound does not retroactively resize the window, and an
insertion past the new bound evicts only the single oldest entry, so the
length stays above the new bound instead of being restored to it. -/
theorem window_bound_reconfiguration (l : List ℚ) (n : ℕ) (x : ℚ)
    (hn : 1 ≤ n) (steps : List (ℕ × ℚ)) (N : ℕ)
    (hsteps : ∀ p ∈ steps, 1 ≤ p.1 ∧ p.1 ≤ N) :
    (pushBounded n l x).length ≤ max l.length n ∧
    (n ≤ l.length → (pushBounded n l x).length = l.length) ∧
    (windowRun steps).length ≤ N := by
  refine ⟨length_pushBounded_le_max n l x hn, ?_, ?_⟩
  · intro hle
    rw [length_pushBounded_eq n l x hn, if_pos hle]
  · exact windowRun_from_le N steps [] hsteps (by simp)

/-- C3 witness: the amended theorem at the counterexample's run — all
bounds are 10 or 30, so the window never exceeds 30 entries, and the
insertion past the shrunken bound keeps the length at 11. -/
theorem window_bound_reconfiguration_witness :
    (pushBounded 10 (List.replicate 11 (1 : ℚ)) 1).length ≤
      max (List.replicate 11 (1 : ℚ)).length 10 ∧
    (10 ≤ (List.replicate 11 (1 : ℚ)).length →
      (pushBounded 10 (List.replicate 11 (1 : ℚ)) 1).length =
        (List.replicate 11 (1 : ℚ)).length) ∧
    (windowRun (List.replicate 11 (30, 1) ++ [(10, 1)])).length ≤ 30 :=
  window_bound_reconfiguration (List.replicate 11 1) 10 1 (by decide)
    (List.replicate 11 (30, 1) ++ [(10, 1)]) 30 (by decide)

/-! ## Connection state tracker

Embeds the MQTT event handlers and reconnect logic of
`src/unnamed/part_002`: the `connect` handler (lines 168-174), the `error`
handler (lines 249-254), the `offline` handler with its reconnect-timer
guard (lines 256-268), the manual `reconnect` function (lines 501-510),
and the unmount cleanup that clears the timer (lines 145-153).
`pendingReconnect` counts the live reconnect timers held in
`reconnectTimeoutRef`: the `offline` handler schedules one only when
`autoRefresh` is on and none is pending (`!reconnectTimeoutRef.current`),
and the timer's own callback runs `reconnect()` and nulls the ref. -/

/-- The transport/timer events that drive the tracker. -/
inductive TrackerEvent where
  | connectEv
  | offlineEv
  | errorEv (msg : String)
  | timerFire
  | manualReconnect
  | teardown
deriving DecidableEq, Repr

/-- The tracker state: connection flag, the auto-reconnect setting, the
number of pending reconnect timers, and the status line. -/
structure TrackerState where
  isConnected : Bool
  autoRefresh : Bool
  pendingReconnect : ℕ
  status : String
deriving DecidableEq, Repr

/-- Initial tracker state: disconnected, auto-reconnect enabled, no timer
pending. -/
def initTracker : TrackerState :=
  { isConnected := false, autoRefresh := true, pendingReconnect := 0
    status := "Esperando conexión..." }

/-- One event step of the tracker.

* `connectEv`: sets the connected flag and status (and resets the attempt
  counter, not modelled); it does not touch `reconnectTimeoutRef`.
* `errorEv`: surfaces the error status; schedules nothing.
* `offlineEv`: surfaces the disconnect status and, when auto-reconnect is
  on and no reconnect timer is pending, schedules exactly one.
* `timerFire`: the scheduled callback runs `reconnect()` (status line) and
  nulls the ref; it can only occur while a timer is pending.
* `manualReconnect`: sets the status and redials after an untracked 1 s
  delay; it does not touch `reconnectTimeoutRef`.
* `teardown`: the unmount cleanup clears any pending timer. -/
def trackerStep (s : TrackerState) : TrackerEvent → TrackerState
  | .connectEv => { s with isConnected := true, status := "Conectado a MQTT" }
  | .errorEv m =>
      { s with isConnected := false, status := "Error de conexión: " ++ m }
  | .offlineEv =>
      let s1 := { s with isConnected := false
                         status := "Desconectado del broker MQTT" }
      if s.autoRefresh ∧ s.pendingReconnect = 0 then
        { s1 with pendingReconnect := s.pendingReconnect + 1 }
      else s1
  | .timerFire =>
      if s.pendingReconnect ≠ 0 then
        { s with pendingReconnect := s.pendingReconnect - 1
                 status := "Reconectando..." }
      else s
  | .manualReconnect => { s with status := "Reconectando..." }
  | .teardown => { s with pendingReconnect := 0 }

/-- A run of the tracker from its initial state. -/
def trackerRun (evs : List TrackerEvent) : TrackerState :=
  evs.foldl trackerStep initTracker

theorem trackerStep_pending_le (s : TrackerState) (e : TrackerEvent)
    (h : s.pendingReconnect ≤ 1) :
    (trackerStep s e).pendingReconnect ≤ 1 := by
  cases e with
  | connectEv => exact h
  | errorEv m => exact h
  | offlineEv =>
      simp only [trackerStep]
      split
      · next hc =>
          show s.pendingReconnect + 1 ≤ 1
          omega
      · exact h
  | timerFire =>
      simp only [trackerStep]
      split
      · show s.pendingReconnect - 1 ≤ 1
        omega
      · exact h
  | manualReconnect => exact h
  | teardown => simp [trackerStep]

theorem trackerRun_from_pending_le :
    ∀ (evs : List TrackerEvent) (s : TrackerState), s.pendingReconnect ≤ 1 →
      (evs.foldl trackerStep s).pendingReconnect ≤ 1
  | [], _, h => h
  | e :: evs, s, h => by
      rw [List.foldl_cons]
      exact trackerRun_from_pending_le evs _ (trackerStep_pending_le s e h)

/-- C7 (confirmed). Reconnect-timer debounce: in every state the tracker
reaches from its initial state, at most one reconnect timer is pending,
and a second transport disconnect arriving while a timer is already
pending schedules nothing — the pending-timer count stays exactly 1. -/
theorem reconnect_timer_debounce (evs : List TrackerEvent)
    (s : TrackerState) (hs : s.pendingReconnect = 1) :
    (trackerRun evs).pendingReconnect ≤ 1 ∧
    (trackerStep s .offlineEv).pendingReconnect = 1 := by
  constructor
  · exact trackerRun_from_pending_le evs initTracker (by decide)
  · simp [trackerStep, hs]

/-- C7 witness: after a first `offline` event one timer is pending, and a
second `offline` event leaves the count at 1. -/
theorem reconnect_timer_debounce_witness :
    (trackerRun [.offlineEv, .offlineEv]).pendingReconnect ≤ 1 ∧
    (trackerStep (trackerRun [.offlineEv]) .offlineEv).pendingReconnect
      = 1 :=
  reconnect_timer_debounce [.offlineEv, .offlineEv]
    (trackerRun [.offlineEv]) (by decide)

/-! ### C8: timer cancellation -/

/-- C8 counterexample. After an `offline` event schedules a reconnect
timer, a transition to Connected leaves the timer pending (count 1, not
0) and the pending attempt still fires afterwards (running `reconnect()`,
which sets the reconnecting status); a manual `reconnect()` likewise
leaves the timer pending. Nothing in the code cancels the timer on either
occasion. -/
theorem timer_cancellation_cex :
    (trackerRun [.offlineEv, .connectEv]).pendingReconnect = 1 ∧
    (trackerStep (trackerRun [.offlineEv, .connectEv]) .timerFire).status =
      "Reconectando..." ∧
    (trackerRun [.offlineEv, .manualReconnect]).pendingReconnect = 1 := by
  refine ⟨rfl, rfl, rfl⟩

/-- C8 as amended (corrected). Neither a manual `reconnect()` call nor an
observed Connected transition cancels a pending reconnect timer — both
leave the pending count unchanged. The pending timer is cleared only when
it fires (its callback nulls the ref) or by the unmount cleanup, so a
reconnect attempt scheduled before a successful reconnection still fires
after it. -/
theorem timer_cancellation (s : TrackerState)
    (hs : s.pendingReconnect = 1) :
    (trackerStep s .connectEv).pendingReconnect = s.pendingReconnect ∧
    (trackerStep s .manualReconnect).pendingReconnect =
      s.pendingReconnect ∧
    (trackerStep s .timerFire).pendingReconnect = 0 ∧
    (trackerStep s .teardown).pendingReconnect = 0 := by
  refine ⟨rfl, rfl, ?_, rfl⟩
  simp [trackerStep, hs]

/-- C8 witness: the amended theorem at the state reached by a single
`offline` event. -/
theorem timer_cancellation_witness :
    (trackerStep (trackerRun [.offlineEv]) .connectEv).pendingReconnect =
      (trackerRun [.offlineEv]).pendingReconnect ∧
    (trackerStep (trackerRun [.offlineEv])
        .manualReconnect).pendingReconnect =
      (trackerRun [.offlineEv]).pendingReconnect ∧
    (trackerStep (trackerRun [.offlineEv]) .timerFire).pendingReconnect
      = 0 ∧
    (trackerStep (trackerRun [.offlineEv]) .teardown).pendingReconnect
      = 0 :=
  timer_cancellation (trackerRun [.offlineEv]) (by decide)

/-! ## Export (`exportData`, src/unnamed/part_002 lines 512-593)

With an empty session log the function alerts and returns without
producing a file (the `EmptyExport` condition, modelled as `none`).
Otherwise it builds either a CSV — a header row followed by one row per
logged record — or a JSON array with one enhanced entry per logged record.
The CSV content is modelled as its list of rows of cells (the source joins
cells with commas and rows with newlines, which is presentation); the
ISO-8601 rendering of the numeric receipt timestamp is abstracted as the
decimal string of the timestamp, since no claim depends on the calendar
text. -/

/-- ISO-8601 rendering of an epoch timestamp, abstracted to its decimal
string. -/
def isoTimestamp (t : ℚ) : String := "iso:" ++ toString t

/-- The fixed CSV column set of the full dashboard's export. -/
def csvHeaders : List String :=
  ["timestamp", "temperature", "humidity", "soil_moisture", "pressure",
    "tds", "water_level", "water_level_percent", "light",
    "light_interpretation", "water_quality", "color_r", "color_g",
    "color_b"]

/-- Numeric property read, `undefined` and non-numbers giving `none`. -/
def getNum (r : Record) (k : String) : Option ℚ :=
  match getVal r k with
  | some (.num q) => some q
  | _ => none

/-- `header.replace(/_[rgb]$/, "")`: of the fixed headers only the three
color columns end in `_r`/`_g`/`_b`. -/
def stripColorSuffix (h : String) : String :=
  if h = "color_r" ∨ h = "color_g" ∨ h = "color_b" then "color" else h

/-- How `row.join(",")` prints one cell value. -/
def cellString : Option SVal → String
  | none => ""
  | some (.num q) => toString q
  | some (.str s) => s
  | some (.rgb _ _ _) => "[object Object]"

/-- Truthiness of `data.timestamp`: present and non-zero. -/
def truthyNum : Option ℚ → Bool
  | some t => !(decide (t = 0))
  | none => false

/-- Whether `data.color` holds a color object. -/
def hasColor : Option SVal → Bool
  | some (.rgb _ _ _) => true
  | _ => false

/-- One cell of a CSV data row (the `headers.map` callback of the source:
special cases for the truthy timestamp, the color components when a color
object is present, and the three derived columns, then the generic
fallback guarded on the suffix-stripped key). -/
def csvCell (r : Record) (h : String) : String :=
  if h = "timestamp" ∧ truthyNum (getNum r "timestamp") then
    match getNum r "timestamp" with
    | some t => isoTimestamp t
    | none => ""
  else if h = "color_r" ∧ hasColor (getVal r "color") then
    match getVal r "color" with
    | some (.rgb a _ _) => toString a
    | _ => ""
  else if h = "color_g" ∧ hasColor (getVal r "color") then
    match getVal r "color" with
    | some (.rgb _ b _) => toString b
    | _ => ""
  else if h = "color_b" ∧ hasColor (getVal r "color") then
    match getVal r "color" with
    | some (.rgb _ _ c) => toString c
    | _ => ""
  else if h = "water_level_percent" then
    toString (waterLevelToPercent (getNum r "water_level"))
  else if h = "light_interpretation" then
    interpretLightLevel (getNum r "light")
  else if h = "water_quality" then
    interpretWaterQuality (getNum r "tds")
  else
    match getVal r (stripColorSuffix h) with
    | none => ""
    | some _ => cellString (getVal r h)

/-- One CSV data row for a logged record. -/
def csvRow (r : Record) : List String := csvHeaders.map (csvCell r)

/-- The enhanced JSON entry for a logged record: the record spread
together with the derived fields (`timestamp_iso` is omitted when the
timestamp is absent, as `JSON.stringify` drops `undefined` values). -/
def enhanceRecord (r : Record) : Record :=
  let r1 := setKey r "water_level_percent"
    (.num ((waterLevelToPercent (getNum r "water_level") : ℤ) : ℚ))
  let r2 := setKey r1 "light_interpretation"
    (.str (interpretLightLevel (getNum r "light")))
  let r3 := setKey r2 "water_quality"
    (.str (interpretWaterQuality (getNum r "tds")))
  match getNum r "timestamp" with
  | some t => setKey r3 "timestamp_iso" (.str (isoTimestamp t))
  | none => r3

/-- The requested export format. -/
inductive ExportFormat where
  | csv
  | json
deriving DecidableEq, Repr

/-- A produced export file: CSV rows (header row first) or the JSON
array's entries. -/
inductive ExportFile where
  | csvFile (rows : List (List String))
  | jsonFile (entries : List Record)
deriving DecidableEq, Repr

/-- `exportData`: `none` models the `EmptyExport` condition (the alert
with no file); otherwise the full file content for the session log. -/
def exportData (format : ExportFormat) (log : List Record) :
    Option ExportFile :=
  if log.length = 0 then none
  else
    some (match format with
      | .csv => .csvFile (csvHeaders :: log.map csvRow)
      | .json => .jsonFile (log.map enhanceRecord))

/-- C5 (confirmed). Export correctness: with zero logged records both
formats signal `EmptyExport` and produce no file; with `K ≥ 1` logged
records the CSV export is the header row followed by exactly `K` data
rows, and the JSON export is an array of exactly `K` entries — one per
logged record. -/
theorem export_correctness (log : List Record) :
    (exportData .csv log = none ↔ log = []) ∧
    (exportData .json log = none ↔ log = []) ∧
    (log ≠ [] →
      exportData .csv log = some (.csvFile (csvHeaders :: log.map csvRow)) ∧
      (log.map csvRow).length = log.length ∧
      exportData .json log = some (.jsonFile (log.map enhanceRecord)) ∧
      (log.map enhanceRecord).length = log.length) := by
  refine ⟨?_, ?_, ?_⟩
  · simp [exportData, List.length_eq_zero]
  · simp [exportData, List.length_eq_zero]
  · intro hne
    have hlen : ¬ log.length = 0 := by simpa [List.length_eq_zero] using hne
    exact ⟨by simp [exportData, hlen], by simp,
      by simp [exportData, hlen], by simp⟩

/-- C5 witness: a two-record log exports as a header row plus two CSV data
rows, and as a two-entry JSON array; the empty log exports nothing. -/
theorem export_correctness_witness :
    (exportData .csv [[("temperature", .num 21),
          ("timestamp", .num 5)], [("tds", .num 120)]] = none ↔
      ([[("temperature", SVal.num 21), ("timestamp", SVal.num 5)],
          [("tds", SVal.num 120)]] : List Record) = []) ∧
    (exportData .json [[("temperature", .num 21),
          ("timestamp", .num 5)], [("tds", .num 120)]] = none ↔
      ([[("temperature", SVal.num 21), ("timestamp", SVal.num 5)],
          [("tds", SVal.num 120)]] : List Record) = []) ∧
    (([[("temperature", SVal.num 21), ("timestamp", SVal.num 5)],
          [("tds", SVal.num 120)]] : List Record) ≠ [] →
      exportData .csv [[("temperature", .num 21), ("timestamp", .num 5)],
          [("tds", .num 120)]] =
        some (.csvFile (csvHeaders ::
          List.map csvRow [[("temperature", .num 21),
            ("timestamp", .num 5)], [("tds", .num 120)]])) ∧
      (List.map csvRow [[("temperature", .num 21), ("timestamp", .num 5)],
          [("tds", .num 120)]]).length =
        ([[("temperature", SVal.num 21), ("timestamp", SVal.num 5)],
          [("tds", SVal.num 120)]] : List Record).length ∧
      exportData .json [[("temperature", .num 21), ("timestamp", .num 5)],
          [("tds", .num 120)]] =
        some (.jsonFile (List.map enhanceRecord
          [[("temperature", .num 21), ("timestamp", .num 5)],
            [("tds", .num 120)]])) ∧
      (List.map enhanceRecord [[("temperature", .num 21),
          ("timestamp", .num 5)], [("tds", .num 120)]]).length =
        ([[("temperature", SVal.num 21), ("timestamp", SVal.num 5)],
          [("tds", SVal.num 120)]] : List Record).length) :=
  export_correctness [[("temperature", .num 21), ("timestamp", .num 5)],
    [("tds", .num 120)]]

end Invernadero
